import Mathlib

/-!
Verification development for the Hacker News listing scraper (Go).

Shallow embedding conventions:
* A Go `*html.Node` pointer is represented by the forest (`NodeList`) it
  heads: the node itself followed by its later siblings.  A nil pointer is the
  empty forest.  `html.Node` itself becomes the inductive `Node` below, which
  stores the node type, the tag/text data, the attribute list and the child
  forest; the Go pointer fields FirstChild/NextSibling/PrevSibling/LastChild
  are recovered from the child forest and the sibling context.  `Node` and
  `NodeList` are mutually inductive so that every tree traversal is plain
  structural recursion.
* Go strings are treated as sequences of Lean characters; all inputs of
  interest are ASCII, where Go's byte indexing and character indexing agree.
* Fallible Go functions returning `(T, error)` become `GoResult T`; a nil
  pointer dereference (a Go runtime panic) is the distinguished `crash`
  outcome.
* The regex deletion scan carries an explicit fuel argument equal to the
  string length; each step consumes at least one character (the regex literal
  is nonempty in both uses), so the fuel is always sufficient.
-/

/-- Go regexp `\d` is exactly the ASCII digits; `\D` is its complement. -/
def isGoDigit (c : Char) : Bool := '0' ≤ c && c ≤ '9'

/-- Value of a nonempty all-digit string, `none` otherwise
(the digit-run core of Go `strconv.Atoi`). -/
def digitsVal (l : List Char) : Option Nat :=
  if l.isEmpty || !l.all isGoDigit then none
  else some (l.foldl (fun acc c => acc * 10 + (c.toNat - 48)) 0)

/-- Magnitude-and-range part of Go `strconv.Atoi` (64-bit int range). -/
def atoiMag (sign : Int) (digits : List Char) : Option Int :=
  match digitsVal digits with
  | none => none
  | some n =>
    if sign * (n : Int) < -(2 ^ 63) ∨ (2 ^ 63 : Int) ≤ sign * (n : Int) then none
    else some (sign * (n : Int))

/-- Go `strconv.Atoi`: optional sign, then a nonempty digit run, nothing else;
`none` models the non-nil error. -/
def atoi (l : List Char) : Option Int :=
  match l with
  | [] => none
  | c :: rest =>
    if c = '+' then atoiMag 1 rest
    else if c = '-' then atoiMag (-1) rest
    else atoiMag 1 (c :: rest)

/-- Go `strings.Replace(s, ".", "", 1)`: remove the first "." occurrence. -/
def removeFirstDot : List Char → List Char
  | [] => []
  | c :: rest => if c = '.' then rest else c :: removeFirstDot rest

/-- Length of the maximal run of non-digit characters at the front. -/
def leadingNonDigits : List Char → Nat
  | [] => 0
  | c :: rest => if isGoDigit c then 0 else leadingNonDigits rest + 1

/-- One extra consumed character when the optional trailing `s` of the regex
literal is present right after position `j + lit.length`. -/
def sExtra (l lit : List Char) (j : Nat) : Nat :=
  match (l.drop (j + lit.length)).head? with
  | some c => if c = 's' then 1 else 0
  | none => 0

/-- Greedy backtracking search for the regex `\D*LIT s?` anchored at the start
of `l`: try the non-digit prefix length `j`, longest first, and return the
total number of characters consumed by the match. -/
def matchFrom (l lit : List Char) : Nat → Option Nat
  | 0 =>
    if lit.isPrefixOf l then some (lit.length + sExtra l lit 0) else none
  | j + 1 =>
    if lit.isPrefixOf (l.drop (j + 1)) then
      some (j + 1 + lit.length + sExtra l lit (j + 1))
    else matchFrom l lit j

/-- Characters consumed by the leftmost-greedy match of `\D*LIT s?` at the
start of `l`, if any. -/
def matchHere (lit l : List Char) : Option Nat :=
  matchFrom l lit (leadingNonDigits l)

/-- Scan for successive non-overlapping leftmost matches of `\D*LIT s?` and
delete them, as Go `regexp.ReplaceAllString(s, "")` does.  The fuel starts at
the string length; every step consumes at least one character (the literal is
nonempty in both uses), so the fuel never runs out. -/
def replaceAllAux (lit : List Char) : Nat → List Char → List Char
  | 0, l => l
  | _ + 1, [] => []
  | fuel + 1, c :: rest =>
    match matchHere lit (c :: rest) with
    | some n => replaceAllAux lit fuel ((c :: rest).drop n)
    | none => c :: replaceAllAux lit fuel rest

/-- Go `regexp.MustCompile("\\D*" ++ LIT ++ "s?").ReplaceAllString(l, "")`. -/
def replaceAllWord (lit l : List Char) : List Char :=
  replaceAllAux lit l.length l

/-- The regex deletion `\D*points?` used by `getPoints`. -/
def stripPointsWord (l : List Char) : List Char :=
  replaceAllWord ['p', 'o', 'i', 'n', 't'] l

/-- The regex deletion `\D*comments?` used by `getComments`. -/
def stripCommentsWord (l : List Char) : List Char :=
  replaceAllWord ['c', 'o', 'm', 'm', 'e', 'n', 't'] l

/-- Go `s[0:min(len(s), 256)]` (the `min` in the source routes through
`math.Min` on floats, which is exact at these sizes). -/
def truncate256 (s : String) : String := String.mk (s.toList.take 256)

/-- Model of the external stdlib round trip `url.Parse(s)` followed by
`.String()`: the identity on URLs free of ASCII control characters, `none` on
control characters.  No claim depends on URL normalization details; every
concrete URL used below round-trips unchanged through the Go functions. -/
def urlParse (s : String) : Option String :=
  if s.toList.any (fun c => c.toNat < 32) then none else some s

/-- `html.NodeType`, restricted to the cases the program distinguishes. -/
inductive NodeType where
  | elementNode
  | textNode
  | otherNode
deriving DecidableEq, Repr

/-- `html.Attribute` (namespace field unused by the program). -/
structure GoAttr where
  key : String
  val : String
deriving DecidableEq, Repr

mutual
/-- `html.Node`: node type, tag-or-text data, attributes, child forest. -/
inductive Node where
  | mk (ntype : NodeType) (data : String) (attr : List GoAttr)
       (children : NodeList)
/-- A sibling chain of nodes: what a (possibly nil) `*html.Node` pointer
reaches through `NextSibling`. -/
inductive NodeList where
  | nil
  | cons (head : Node) (tail : NodeList)
end

def Node.ntype : Node → NodeType
  | .mk t _ _ _ => t

def Node.data : Node → String
  | .mk _ d _ _ => d

def Node.attr : Node → List GoAttr
  | .mk _ _ a _ => a

def Node.children : Node → NodeList
  | .mk _ _ _ c => c

/-- The sibling chain as an ordinary list. -/
def NodeList.toList : NodeList → List Node
  | .nil => []
  | .cons n rest => n :: rest.toList

/-- Build a sibling chain from an ordinary list (fixture helper). -/
def nlist : List Node → NodeList
  | [] => .nil
  | n :: rest => .cons n (nlist rest)

/-- `type comparator func(node *html.Node) bool`. -/
def comparator : Type := Node → Bool

/-- Outcome of a fallible Go function: a value, a non-nil `error`, or a
runtime panic from a nil pointer dereference (`crash`). -/
inductive GoResult (α : Type) where
  | ok (val : α)
  | err (msg : String)
  | crash
deriving DecidableEq, Repr

/-- Error/panic propagation, as Go's `if err != nil { return ..., err }`. -/
def GoResult.bind {α β : Type} : GoResult α → (α → GoResult β) → GoResult β
  | .ok a, f => f a
  | .err e, _ => .err e
  | .crash, _ => .crash

/-- `getAttribute`: first attribute with the given key, or nil. -/
def getAttribute (key : String) (attrs : List GoAttr) : Option GoAttr :=
  attrs.find? (fun a => a.key == key)

/-- `hasAttribute`: the key is present and carries exactly this value. -/
def hasAttribute (key value : String) (attrs : List GoAttr) : Bool :=
  match getAttribute key attrs with
  | none => false
  | some a => a.val == value

/-- `findByClass`: element nodes whose class attribute equals `cls` exactly. -/
def findByClass (cls : String) : comparator := fun n =>
  n.ntype == NodeType.elementNode && hasAttribute "class" cls n.attr

/-- `findNode(n, compare)` with the pointer `n` represented as the forest it
heads: pre-order match collection over the node, its descendants, and its
later siblings, in document order; nil (the empty forest) yields the empty
match list. -/
def findNode (cmp : comparator) : NodeList → List Node
  | .nil => []
  | .cons (Node.mk t d a cs) rest =>
    (if cmp (Node.mk t d a cs) then [Node.mk t d a cs] else []) ++
      findNode cmp cs ++ findNode cmp rest

/-- `findNode`, with each match paired with its later-sibling chain — exactly
the extra information a Go match pointer carries via `NextSibling`, needed by
the `getPosts` loop. -/
def findNodeCtx (cmp : comparator) : NodeList → List (Node × NodeList)
  | .nil => []
  | .cons (Node.mk t d a cs) rest =>
    (if cmp (Node.mk t d a cs) then [(Node.mk t d a cs, rest)] else []) ++
      findNodeCtx cmp cs ++ findNodeCtx cmp rest

/-- `prevSiblingUntil(node, compare)`: the loop header dereferences
`node.PrevSibling` before any nil check, so a nil pointer input panics;
otherwise walk strictly backward from `node` through `PrevSibling` pointers,
returning the first hit, or nil when the siblings are exhausted.  For sibling
walking a `*html.Node` pointer is `none` (nil) or the node together with its
earlier siblings in document order; the backward chain of a node whose
earlier siblings are `preceding` is `preceding.reverse`. -/
def prevSiblingUntil (node : Option (Node × List Node)) (cmp : comparator) :
    GoResult (Option Node) :=
  match node with
  | none => .crash
  | some (_, preceding) => .ok (preceding.reverse.find? cmp)

/-- The `LastChild` pointer of a child forest: nil when there are no
children, else the last child together with its earlier siblings. -/
def lastChildPtr (cs : NodeList) : Option (Node × List Node) :=
  match cs.toList.getLast? with
  | none => none
  | some last => some (last, cs.toList.dropLast)

/-- `type Post struct` of the scraper (ints become `Int`: the sentinels are
negative and parsed values may be negative). -/
structure Post where
  Title : String
  URL : String
  Author : String
  Points : Int
  Comments : Int
  Rank : Int
deriving DecidableEq, Repr

/-- `type Posts []Post`. -/
def Posts : Type := List Post

/-- The Go zero value of `Post`, filling `make([]Post, n)`. -/
def zeroPost : Post := ⟨"", "", "", 0, 0, 0⟩

/-- `getURL(node)`: the single storylink anchor among the node's children
forest, validated and its href round-tripped through the URL parser. -/
def getURL (node : Node) : GoResult String :=
  match findNode (findByClass "storylink") node.children with
  | [n] =>
    if n.ntype ≠ NodeType.elementNode then .err "uri node type is not an element node"
    else if n.data ≠ "a" then .err "uri node is not an anchor"
    else
      match getAttribute "href" n.attr with
      | none => .err "uri node does not have a href attribute"
      | some href =>
        match urlParse href.val with
        | none => .err "url parse error"
        | some s => .ok s
  | _ => .err "uri nodes length is not exactly one"

/-- `getTitle(node)`: text of the single storylink among the node's children
forest, truncated to 256 characters. -/
def getTitle (node : Node) : GoResult String :=
  match findNode (findByClass "storylink") node.children with
  | [n] =>
    match n.children with
    | .nil => .err "author node does not have any children"
    | .cons fc _ =>
      if fc.ntype ≠ NodeType.textNode then .err "author node child is not a text node"
      else .ok (truncate256 fc.data)
  | _ => .err "author nodes length is not exactly one"

/-- `getAuthor(node)`: like `getTitle` but searched from the metadata-row
forest (the pointer and its later siblings) for the hnuser element. -/
def getAuthor (forest : NodeList) : GoResult String :=
  match findNode (findByClass "hnuser") forest with
  | [n] =>
    match n.children with
    | .nil => .err "author node does not have any children"
    | .cons fc _ =>
      if fc.ntype ≠ NodeType.textNode then .err "author node child is not a text node"
      else .ok (truncate256 fc.data)
  | _ => .err "author nodes length is not exactly one"

/-- `getRank(node)`: text of the single rank element among the node's
children forest, first "." occurrence removed, integer-parsed. -/
def getRank (node : Node) : GoResult Int :=
  match findNode (findByClass "rank") node.children with
  | [n] =>
    match n.children with
    | .nil => .err "rank node does not have any children"
    | .cons fc _ =>
      if fc.ntype ≠ NodeType.textNode then .err "rank node child is not a text node"
      else
        match atoi (removeFirstDot fc.data.toList) with
        | none => .err "rank failed to convert to integer"
        | some v => .ok v
  | _ => .err "rank nodes length is not exactly one"

/-- `getPoints(node)`: text of the single score element in the metadata-row
forest, regex-stripped of `\D*points?`, integer-parsed. -/
def getPoints (forest : NodeList) : GoResult Int :=
  match findNode (findByClass "score") forest with
  | [n] =>
    match n.children with
    | .nil => .err "point node does not have any children"
    | .cons fc _ =>
      if fc.ntype ≠ NodeType.textNode then .err "point node child is not a text node"
      else
        match atoi (stripPointsWord fc.data.toList) with
        | none => .err "point failed to convert to integer"
        | some v => .ok v
  | _ => .err "point nodes length is not exactly one"

/-- `getCommentNode(node)`: locate the single subtext element in the
metadata-row forest; from its last child walk backward to the nearest
element sibling; return that element's first child, which must be a text
node.  A subtext element without children makes `LastChild` nil and the
subsequent `PrevSibling` dereference inside `prevSiblingUntil` panics. -/
def getCommentNode (forest : NodeList) : GoResult Node :=
  match findNode (findByClass "subtext") forest with
  | [st] =>
    match prevSiblingUntil (lastChildPtr st.children)
        (fun n => n.ntype == NodeType.elementNode) with
    | .crash => .crash
    | .err e => .err e
    | .ok none => .err "comment node is nil"
    | .ok (some commentNode) =>
      match commentNode.children with
      | .nil => .err "comment node does not have any children"
      | .cons tn _ =>
        if tn.ntype ≠ NodeType.textNode then .err "comment node child is not a text node"
        else .ok tn
  | _ => .err "comment parent nodes length is not exactly one"

/-- `isAdvertisement(node)`: the located comment text equals "hide". -/
def isAdvertisement (forest : NodeList) : GoResult Bool :=
  (getCommentNode forest).bind (fun tn =>
    if tn.data = "hide" then .ok true else .ok false)

/-- `getComments(node)`: "discuss" is zero comments; otherwise regex-strip
`\D*comments?` and integer-parse. -/
def getComments (forest : NodeList) : GoResult Int :=
  (getCommentNode forest).bind (fun tn =>
    if tn.data = "discuss" then .ok 0
    else
      match atoi (stripCommentsWord tn.data.toList) with
      | none => .err "comments failed to convert to integer"
      | some v => .ok v)

/-- Body of the `getPosts` loop for one story fragment, given the fragment
node and its later siblings.  `ok none` is the `continue` (fragment skipped);
`crash` is the nil dereference of `postNode.NextSibling.FirstChild` when the
fragment has no next sibling. -/
def assemblePost (postNode : Node) (rest : NodeList) : GoResult (Option Post) :=
  (getTitle postNode).bind (fun title =>
  (getURL postNode).bind (fun u =>
    match rest with
    | .nil => .crash
    | .cons nextSib _ =>
      match nextSib.children with
      | .nil => .ok none
      | .cons nr0 nrest =>
        (isAdvertisement (NodeList.cons nr0 nrest)).bind (fun isAd =>
        (if isAd then .ok ("N/A", (-1 : Int), (-1 : Int))
         else
           (getAuthor (NodeList.cons nr0 nrest)).bind (fun author =>
           (getPoints (NodeList.cons nr0 nrest)).bind (fun points =>
           (getComments (NodeList.cons nr0 nrest)).bind (fun comments =>
             .ok (author, points, comments))))).bind (fun apc =>
        (getRank postNode).bind (fun rank =>
          .ok (some ⟨title, u, apc.1, apc.2.1, apc.2.2, rank⟩))))))

/-- The `getPosts` loop over the matched story fragments: first failure wins,
skipped fragments contribute nothing, records keep document order. -/
def getPostsLoop : List (Node × NodeList) → GoResult (List Post)
  | [] => .ok []
  | (n, rest) :: l =>
    (assemblePost n rest).bind (fun op =>
      (getPostsLoop l).bind (fun ps =>
        match op with
        | none => .ok ps
        | some p => .ok (p :: ps)))

/-- `getPosts(node)` on the forest headed by the parsed document root:
assemble one record per athing-class fragment in document order. -/
def getPosts (forest : NodeList) : GoResult (List Post) :=
  getPostsLoop (findNodeCtx (findByClass "athing") forest)

/-- `type result struct` carried on the results channel: a page number and
that page's assembled records. -/
structure PageResult where
  page : Nat
  posts : List Post
deriving DecidableEq, Repr

/-- One delivery on one of the two channels of the collection loop: a page
task's successful outcome or its first error (`fetch` sends exactly one of
the two). -/
inductive Arrival where
  | res (r : PageResult)
  | fail (e : String)
deriving DecidableEq, Repr

/-- Observable end state of a run: the encoded output sequence, a fatal
error (`log.Fatal`, nothing printed), or stuck forever waiting on channels. -/
inductive RunOutcome where
  | ok (out : List Post)
  | fatal (e : String)
  | stuck
deriving DecidableEq, Repr

/-- `postsPerPage := 30`. -/
def postsPerPage : Nat := 30

/-- `pagesToFetch := math.Ceil(float64(postsToFetch) / float64(postsPerPage))`;
the float ceiling is exact at these magnitudes. -/
def pagesToFetchFor (postsToFetch : Nat) : Nat :=
  (postsToFetch + postsPerPage - 1) / postsPerPage

/-- Inner write loop of the collection loop: for each record of the arrived
page, stop as soon as the target index `offset + index` falls outside the
buffer, else overwrite the slot.  `index` counts from 0 over the page's
records; the buffer length never changes. -/
def mergePageAux (offset : Nat) (buf : List Post) (index : Nat) :
    List Post → List Post
  | [] => buf
  | p :: rest =>
    if buf.length ≤ offset + index then buf
    else mergePageAux offset (buf.set (offset + index) p) (index + 1) rest

/-- Positional merge of one page's records at `offset = (page-1)*30`. -/
def mergePage (buf : List Post) (offset : Nat) (ps : List Post) : List Post :=
  mergePageAux offset buf 0 ps

/-- The final Result Buffer after a list of successful outcomes has been
merged in arrival order. -/
def mergeResults (buf : List Post) (rs : List PageResult) : List Post :=
  rs.foldl (fun b r => mergePage b ((r.page - 1) * postsPerPage) r.posts) buf

/-- The collection loop of `main`, driven by the linearized order in which
channel deliveries are received: a success is merged positionally and counted,
and the loop stops once `pagesToFetch` successes arrived; the first error
received is fatal.  Exhausting the deliveries without either leaves the
process blocked on its channels forever (`stuck`). -/
def collectLoop (pagesTotal : Nat) (buf : List Post) (fetched : Nat) :
    List Arrival → RunOutcome
  | [] => .stuck
  | .fail e :: _ => .fatal e
  | .res r :: rest =>
    let buf2 := mergePage buf ((r.page - 1) * postsPerPage) r.posts
    if fetched + 1 = pagesTotal then .ok buf2
    else collectLoop pagesTotal buf2 (fetched + 1) rest

/-- `main` after flag handling, as a function of the validated requested
count and the delivery order of the page-task outcomes: pre-size the buffer
to `postsToFetch` zero values, run the collection loop, then emit the buffer
truncated to its first `postsToFetch` entries. -/
def runMain (postsToFetch : Nat) (arrivals : List Arrival) : RunOutcome :=
  match collectLoop (pagesToFetchFor postsToFetch)
      (List.replicate postsToFetch zeroPost) 0 arrivals with
  | .ok buf => .ok (buf.take postsToFetch)
  | r => r

/-- Modelled from the spec: the rank parse rule as the spec states it —
"strip one trailing '.' then integer-parse" — for comparison against the
code's `getRank`. -/
def stripOneTrailingDot (l : List Char) : List Char :=
  match l.getLast? with
  | some c => if c = '.' then l.dropLast else l
  | none => l

/-- Modelled from the spec: integer-parse after stripping one trailing dot. -/
def specRankParse (l : List Char) : Option Int :=
  atoi (stripOneTrailingDot l)

/-- Fixture builder: an element node. -/
def elemN (tag : String) (attrs : List GoAttr) (cs : List Node) : Node :=
  Node.mk NodeType.elementNode tag attrs (nlist cs)

/-- Fixture builder: a text node. -/
def textN (s : String) : Node :=
  Node.mk NodeType.textNode s [] NodeList.nil

/-- Fixture: the rank cell of a story fragment. -/
def rankF (rk : String) : Node := elemN "span" [⟨"class", "rank"⟩] [textN rk]

/-- Fixture: the title anchor of a story fragment. -/
def titleF (t u : String) : Node :=
  elemN "a" [⟨"class", "storylink"⟩, ⟨"href", u⟩] [textN t]

/-- Fixture: one story fragment row with rank text, title text and href. -/
def athingF (rk t u : String) : Node :=
  elemN "tr" [⟨"class", "athing"⟩] [rankF rk, titleF t u]

/-- Fixture: the score element of a metadata row. -/
def scoreF (s : String) : Node := elemN "span" [⟨"class", "score"⟩] [textN s]

/-- Fixture: the author element of a metadata row. -/
def userF (a : String) : Node := elemN "a" [⟨"class", "hnuser"⟩] [textN a]

/-- Fixture: the comment link of a metadata row (also carries "discuss" or
"hide"). -/
def commentLinkF (s : String) : Node := elemN "a" [] [textN s]

/-- Fixture: a full subtext cell — score, author, comment link, and a
trailing text separator so the backward walk from the last child lands on
the comment link. -/
def subtextF (score author comment : String) : Node :=
  elemN "td" [⟨"class", "subtext"⟩]
    [scoreF score, userF author, commentLinkF comment, textN " "]

/-- Fixture: a full metadata row. -/
def metaRowF (score author comment : String) : Node :=
  elemN "tr" [] [subtextF score author comment]

/-- Fixture: the subtext cell of an advertisement — comment text "hide", no
author and no score element at all. -/
def subtextAdF : Node :=
  elemN "td" [⟨"class", "subtext"⟩] [commentLinkF "hide", textN " "]

/-- Fixture: the metadata row of an advertisement. -/
def metaRowAdF : Node := elemN "tr" [] [subtextAdF]

/-- Fixture: a metadata row with no subtext element, so the comment-text
locator fails structurally. -/
def metaRowNoSubF : Node := elemN "tr" [] [elemN "td" [] []]

lemma mergePageAux_length (o : Nat) :
    ∀ (ps buf : List Post) (i : Nat), (mergePageAux o buf i ps).length = buf.length := by
  intro ps
  induction ps with
  | nil => intro buf i; rfl
  | cons p rest ih =>
    intro buf i
    simp only [mergePageAux]
    split
    · rfl
    · rw [ih]; simp

lemma mergePage_length (buf : List Post) (o : Nat) (ps : List Post) :
    (mergePage buf o ps).length = buf.length :=
  mergePageAux_length o ps buf 0

lemma mergeResults_length (rs : List PageResult) :
    ∀ buf : List Post, (mergeResults buf rs).length = buf.length := by
  induction rs with
  | nil => intro buf; rfl
  | cons r rest ih =>
    intro buf
    show (mergeResults (mergePage buf _ _) rest).length = _
    rw [ih, mergePage_length]

lemma mergePageAux_getElem?_outside (o : Nat) :
    ∀ (ps buf : List Post) (i k : Nat),
      (k < o + i ∨ o + i + ps.length ≤ k) →
      (mergePageAux o buf i ps)[k]? = buf[k]? := by
  intro ps
  induction ps with
  | nil => intro buf i k _; rfl
  | cons p rest ih =>
    intro buf i k hk
    have hlen : (p :: rest).length = rest.length + 1 := rfl
    simp only [mergePageAux]
    split
    · rfl
    · rw [ih (buf.set (o + i) p) (i + 1) k (by omega)]
      exact List.getElem?_set_ne (by omega)

lemma mergePageAux_getElem?_inside (o : Nat) :
    ∀ (ps buf : List Post) (i k : Nat),
      o + i ≤ k → k < o + i + ps.length → k < buf.length →
      (mergePageAux o buf i ps)[k]? = ps[k - (o + i)]? := by
  intro ps
  induction ps with
  | nil => intro buf i k h1 h2 _; simp at h2; omega
  | cons p rest ih =>
    intro buf i k h1 h2 h3
    have hlen : (p :: rest).length = rest.length + 1 := rfl
    simp only [mergePageAux]
    split
    · omega
    · rcases Nat.eq_or_lt_of_le h1 with heq | hlt
      · rw [mergePageAux_getElem?_outside o rest (buf.set (o + i) p) (i + 1) k (by omega)]
        rw [← heq, Nat.sub_self, List.getElem?_set_self (by omega),
          List.getElem?_cons_zero]
      · have hset : (buf.set (o + i) p).length = buf.length := List.length_set buf (o + i) p
        rw [ih (buf.set (o + i) p) (i + 1) k (by omega) (by omega) (by omega)]
        have hidx : k - (o + i) = (k - (o + (i + 1))) + 1 := by omega
        rw [hidx, List.getElem?_cons_succ]

lemma mergePage_getElem?_outside (buf : List Post) (o : Nat) (ps : List Post)
    (k : Nat) (hk : k < o ∨ o + ps.length ≤ k) :
    (mergePage buf o ps)[k]? = buf[k]? :=
  mergePageAux_getElem?_outside o ps buf 0 k (by omega)

lemma mergePage_getElem?_inside (buf : List Post) (o : Nat) (ps : List Post)
    (k : Nat) (h1 : o ≤ k) (h2 : k < o + ps.length) (h3 : k < buf.length) :
    (mergePage buf o ps)[k]? = ps[k - o]? :=
  mergePageAux_getElem?_inside o ps buf 0 k (by omega) (by omega) h3

lemma mergePage_comm (buf : List Post) (o1 o2 : Nat) (ps1 ps2 : List Post)
    (hdisj : o1 + ps1.length ≤ o2 ∨ o2 + ps2.length ≤ o1) :
    mergePage (mergePage buf o1 ps1) o2 ps2 =
      mergePage (mergePage buf o2 ps2) o1 ps1 := by
  apply List.ext_getElem?
  intro k
  by_cases hlen : k < buf.length
  · by_cases h1 : o1 ≤ k ∧ k < o1 + ps1.length
    · have h2 : k < o2 ∨ o2 + ps2.length ≤ k := by omega
      rw [mergePage_getElem?_outside (mergePage buf o1 ps1) o2 ps2 k h2]
      rw [mergePage_getElem?_inside buf o1 ps1 k h1.1 h1.2 hlen]
      rw [mergePage_getElem?_inside (mergePage buf o2 ps2) o1 ps1 k h1.1 h1.2
        (by rw [mergePage_length]; exact hlen)]
    · by_cases h2 : o2 ≤ k ∧ k < o2 + ps2.length
      · have h1o : k < o1 ∨ o1 + ps1.length ≤ k := by omega
        rw [mergePage_getElem?_inside (mergePage buf o1 ps1) o2 ps2 k h2.1 h2.2
          (by rw [mergePage_length]; exact hlen)]
        rw [mergePage_getElem?_outside (mergePage buf o2 ps2) o1 ps1 k h1o]
        rw [mergePage_getElem?_inside buf o2 ps2 k h2.1 h2.2 hlen]
      · rw [mergePage_getElem?_outside (mergePage buf o1 ps1) o2 ps2 k (by omega)]
        rw [mergePage_getElem?_outside buf o1 ps1 k (by omega)]
        rw [mergePage_getElem?_outside (mergePage buf o2 ps2) o1 ps1 k (by omega)]
        rw [mergePage_getElem?_outside buf o2 ps2 k (by omega)]
  · have e1 : (mergePage (mergePage buf o1 ps1) o2 ps2).length = buf.length := by
      rw [mergePage_length, mergePage_length]
    have e2 : (mergePage (mergePage buf o2 ps2) o1 ps1).length = buf.length := by
      rw [mergePage_length, mergePage_length]
    rw [List.getElem?_eq_none (by omega), List.getElem?_eq_none (by omega)]

lemma mergeResults_perm (rs1 rs2 : List PageResult)
    (hperm : List.Perm rs1 rs2)
    (hdist : List.Pairwise (fun a b => a.page ≠ b.page) rs1)
    (hpage : ∀ r ∈ rs1, 1 ≤ r.page)
    (hcap : ∀ r ∈ rs1, r.posts.length ≤ postsPerPage) :
    ∀ buf : List Post, mergeResults buf rs1 = mergeResults buf rs2 := by
  intro buf
  refine List.Perm.foldl_eq' hperm ?_ buf
  intro x hx y hy z
  by_cases hxy : x = y
  · rw [hxy]
  · have hne : x.page ≠ y.page :=
      hdist.forall (fun _ _ h => Ne.symm h) hx hy hxy
    have hx1 := hpage x hx
    have hy1 := hpage y hy
    have hxc := hcap x hx
    have hyc := hcap y hy
    apply mergePage_comm
    simp only [postsPerPage] at hxc hyc ⊢
    omega

lemma collectLoop_map_res (P : Nat) :
    ∀ (rs : List PageResult) (buf : List Post) (fetched : Nat),
      rs ≠ [] → fetched + rs.length = P →
      collectLoop P buf fetched (rs.map Arrival.res) =
        RunOutcome.ok (mergeResults buf rs) := by
  intro rs
  induction rs with
  | nil => intro _ _ h _; exact absurd rfl h
  | cons r rest ih =>
    intro buf fetched _ hcount
    cases rest with
    | nil =>
      simp only [List.map, collectLoop]
      rw [if_pos (by simpa using hcount)]
      rfl
    | cons r2 rest2 =>
      simp only [List.map, collectLoop]
      rw [if_neg (by simp at hcount ⊢; omega)]
      exact ih _ _ (by simp) (by simp at hcount ⊢; omega)

lemma pagesToFetchFor_pos (c : Nat) (hc : 1 ≤ c) : 1 ≤ pagesToFetchFor c := by
  simp only [pagesToFetchFor, postsPerPage]
  omega

lemma runMain_map_res (c : Nat) (hc : 1 ≤ c) (rs : List PageResult)
    (hlen : rs.length = pagesToFetchFor c) :
    runMain c (rs.map Arrival.res) =
      RunOutcome.ok ((mergeResults (List.replicate c zeroPost) rs).take c) := by
  have hne : rs ≠ [] := by
    intro h
    rw [h] at hlen
    have := pagesToFetchFor_pos c hc
    simp at hlen
    omega
  unfold runMain
  rw [collectLoop_map_res (pagesToFetchFor c) rs _ 0 hne (by omega)]

lemma mergeResults_getElem?_not_covered (rs : List PageResult) :
    ∀ (buf : List Post) (k : Nat),
      (∀ r ∈ rs, k < (r.page - 1) * postsPerPage ∨
        (r.page - 1) * postsPerPage + r.posts.length ≤ k) →
      (mergeResults buf rs)[k]? = buf[k]? := by
  induction rs with
  | nil => intro buf k _; rfl
  | cons r rest ih =>
    intro buf k hk
    show (mergeResults (mergePage buf _ _) rest)[k]? = _
    rw [ih _ k (fun x hx => hk x (List.mem_cons_of_mem r hx))]
    exact mergePage_getElem?_outside _ _ _ _ (hk r (List.mem_cons_self r rest))

/-- C1: for every requested count c in [1,100], a run in which every page
task delivers a successful outcome emits an output sequence of length exactly
c: the buffer is pre-sized to c, positional merging preserves its length, and
the encoder receives its first c entries. -/
theorem c1_output_length_exact (c : Nat) (h1 : 1 ≤ c) (h2 : c ≤ 100)
    (rs : List PageResult) (hlen : rs.length = pagesToFetchFor c) :
    ∃ out, runMain c (rs.map Arrival.res) = RunOutcome.ok out ∧ out.length = c := by
  refine ⟨_, runMain_map_res c h1 rs hlen, ?_⟩
  rw [List.length_take, mergeResults_length, List.length_replicate]
  omega

theorem c1_output_length_exact_witness :
    ∃ out, runMain 31 (([⟨1, []⟩, ⟨2, []⟩] : List PageResult).map Arrival.res)
      = RunOutcome.ok out ∧ out.length = 31 :=
  c1_output_length_exact 31 (by decide) (by decide) [⟨1, []⟩, ⟨2, []⟩] (by decide)

/-- C2: delivering a fixed set of successful per-page outcomes (pairwise
distinct pages numbered from 1, at most 30 records each) to the collection
loop in any permutation of arrival order yields an identical final Result
Buffer, and hence an identical run result: each page writes only its own
disjoint index block starting at (page-1)*30. -/
theorem c2_merge_arrival_order_invariant (c : Nat) (h1 : 1 ≤ c)
    (rs1 rs2 : List PageResult) (hperm : List.Perm rs1 rs2)
    (hdist : List.Pairwise (fun a b => a.page ≠ b.page) rs1)
    (hpage : ∀ r ∈ rs1, 1 ≤ r.page)
    (hcap : ∀ r ∈ rs1, r.posts.length ≤ postsPerPage)
    (hlen : rs1.length = pagesToFetchFor c) :
    mergeResults (List.replicate c zeroPost) rs1 =
      mergeResults (List.replicate c zeroPost) rs2 ∧
    runMain c (rs1.map Arrival.res) = runMain c (rs2.map Arrival.res) := by
  have hbuf := mergeResults_perm rs1 rs2 hperm hdist hpage hcap
  refine ⟨hbuf _, ?_⟩
  rw [runMain_map_res c h1 rs1 hlen,
    runMain_map_res c h1 rs2 (by rw [← hperm.length_eq]; exact hlen), hbuf]

theorem c2_merge_arrival_order_invariant_witness :
    mergeResults (List.replicate 31 zeroPost)
        [⟨1, [⟨"a", "u", "x", 1, 2, 1⟩]⟩, ⟨2, []⟩] =
      mergeResults (List.replicate 31 zeroPost)
        [⟨2, []⟩, ⟨1, [⟨"a", "u", "x", 1, 2, 1⟩]⟩] ∧
    runMain 31 (([⟨1, [⟨"a", "u", "x", 1, 2, 1⟩]⟩, ⟨2, []⟩] :
        List PageResult).map Arrival.res) =
      runMain 31 (([⟨2, []⟩, ⟨1, [⟨"a", "u", "x", 1, 2, 1⟩]⟩] :
        List PageResult).map Arrival.res) :=
  c2_merge_arrival_order_invariant 31 (by decide) _ _
    (List.Perm.swap _ _ _) (by decide) (by decide) (by decide) (by decide)

lemma collectLoop_pre_fail :
    ∀ (pre : List PageResult) (P : Nat) (buf : List Post) (fetched : Nat)
      (e : String) (rest : List Arrival),
      fetched + pre.length < P →
      collectLoop P buf fetched (pre.map Arrival.res ++ Arrival.fail e :: rest) =
        RunOutcome.fatal e := by
  intro pre
  induction pre with
  | nil => intro P buf fetched e rest _; rfl
  | cons r pre2 ih =>
    intro P buf fetched e rest hcount
    simp only [List.map, List.cons_append, collectLoop]
    rw [if_neg (by simp at hcount ⊢; omega)]
    exact ih P _ _ e rest (by simp at hcount ⊢; omega)

/-- C4: the first error outcome received by the collection loop — after any
number of successful outcomes smaller than the page count — is fatal for the
whole run: the run ends with exactly that error and no output sequence, not
even a partial one, is produced. -/
theorem c4_first_error_is_fatal (c : Nat) (e : String) (pre : List PageResult)
    (rest : List Arrival) (hpre : pre.length < pagesToFetchFor c) :
    runMain c (pre.map Arrival.res ++ Arrival.fail e :: rest) =
      RunOutcome.fatal e := by
  unfold runMain
  rw [collectLoop_pre_fail pre (pagesToFetchFor c) _ 0 e rest (by omega)]

theorem c4_first_error_is_fatal_witness :
    runMain 31 (([⟨1, []⟩] : List PageResult).map Arrival.res ++
      Arrival.fail "connection refused" :: []) =
      RunOutcome.fatal "connection refused" :=
  c4_first_error_is_fatal 31 "connection refused" [⟨1, []⟩] [] (by decide)

/-- C10: when every page task succeeds but some page contributes fewer
records than the part of its 30-slot block lying inside the requested count,
the run still succeeds and the output holds the zero-valued record (empty
strings, zero numbers) at the first uncovered position: the merge performs no
fill check before truncating and encoding. -/
theorem c10_underfilled_block_zero_records (c : Nat) (h1 : 1 ≤ c)
    (rs : List PageResult) (r : PageResult) (hmem : r ∈ rs)
    (hdist : List.Pairwise (fun a b => a.page ≠ b.page) rs)
    (hpage : ∀ x ∈ rs, 1 ≤ x.page)
    (hcap : ∀ x ∈ rs, x.posts.length ≤ postsPerPage)
    (hlen : rs.length = pagesToFetchFor c)
    (hshort : r.posts.length < postsPerPage)
    (hunder : (r.page - 1) * postsPerPage + r.posts.length < c) :
    ∃ out, runMain c (rs.map Arrival.res) = RunOutcome.ok out ∧
      out.length = c ∧
      out.getD ((r.page - 1) * postsPerPage + r.posts.length) zeroPost = zeroPost := by
  refine ⟨_, runMain_map_res c h1 rs hlen, ?_, ?_⟩
  · rw [List.length_take, mergeResults_length, List.length_replicate]; omega
  · set k := (r.page - 1) * postsPerPage + r.posts.length with hk
    rw [List.getD_eq_getElem?_getD, List.getElem?_take, if_pos hunder]
    rw [mergeResults_getElem?_not_covered rs _ k ?_]
    · rw [List.getElem?_replicate, if_pos hunder]; rfl
    · intro x hx
      by_cases hxr : x = r
      · right; rw [hxr]
      · have hne : x.page ≠ r.page :=
          hdist.forall (fun _ _ h => Ne.symm h) hx hmem hxr
        have := hpage x hx
        have := hpage r hmem
        have := hcap x hx
        simp only [postsPerPage] at *
        rcases Nat.lt_or_ge x.page r.page with h | h
        · right; omega
        · left; omega

theorem c10_underfilled_block_zero_records_witness :
    ∃ out, runMain 31 (([⟨1, [⟨"a", "u", "x", 1, 2, 1⟩]⟩, ⟨2, []⟩] :
        List PageResult).map Arrival.res) = RunOutcome.ok out ∧
      out.length = 31 ∧ out.getD 1 zeroPost = zeroPost :=
  c10_underfilled_block_zero_records 31 (by decide) _ ⟨1, [⟨"a", "u", "x", 1, 2, 1⟩]⟩
    (by decide) (by decide) (by decide) (by decide) (by decide) (by decide) (by decide)

/-- C5 counterexample: the Tree Query Layer is not total — prevSiblingUntil
applied to a nil pointer dereferences `node.PrevSibling` in its loop header
and panics instead of returning "not found", and that input is reachable
inside the layer's own use: the comment-text locator passes the `LastChild`
of a childless subtext element, crashing the page. -/
theorem c5_nil_prev_sibling_crashes :
    prevSiblingUntil none (findByClass "athing") = GoResult.crash ∧
    getCommentNode (nlist [elemN "td" [⟨"class", "subtext"⟩] []]) =
      GoResult.crash :=
  ⟨rfl, rfl⟩

/-- C5 amended: findNode on a nil/absent root (the empty forest) returns the
empty sequence rather than an error, and prevSiblingUntil applied to any
non-nil node walks strictly backward through the earlier siblings, returning
the nearest match as a value or "not found" (`ok none`) when the siblings are
exhausted — but applied to a nil pointer it dereferences `node.PrevSibling`
and panics (see the counterexample for reachability via a childless subtext
element). -/
theorem c5_tree_query_total_except_nil :
    (∀ cmp : comparator, findNode cmp NodeList.nil = []) ∧
    (∀ (start : Node) (pre : List Node) (cmp : comparator) (m : Node),
        prevSiblingUntil (some (start, pre)) cmp = GoResult.ok (some m) →
        cmp m = true ∧ m ∈ pre) ∧
    (∀ (start : Node) (pre : List Node) (cmp : comparator),
        prevSiblingUntil (some (start, pre)) cmp = GoResult.ok none ↔
        ∀ m ∈ pre, cmp m = false) ∧
    (∀ cmp : comparator, prevSiblingUntil none cmp = GoResult.crash) := by
  refine ⟨fun cmp => rfl, ?_, ?_, fun cmp => rfl⟩
  · intro start pre cmp m h
    simp only [prevSiblingUntil, GoResult.ok.injEq] at h
    exact ⟨List.find?_some h, List.mem_reverse.mp (List.mem_of_find?_eq_some h)⟩
  · intro start pre cmp
    simp only [prevSiblingUntil, GoResult.ok.injEq]
    rw [List.find?_eq_none]
    constructor
    · intro h m hm
      have := h m (List.mem_reverse.mpr hm)
      simpa using this
    · intro h m hm
      have := h m (List.mem_reverse.mp hm)
      simpa using this

theorem c5_tree_query_total_except_nil_witness :
    findNode (findByClass "athing") NodeList.nil = [] ∧
    ((fun n => n.ntype == NodeType.elementNode) (elemN "b" [] []) = true ∧
      elemN "b" [] [] ∈ [textN "x", elemN "b" [] []]) ∧
    prevSiblingUntil none (findByClass "athing") = GoResult.crash :=
  ⟨c5_tree_query_total_except_nil.1 (findByClass "athing"),
   c5_tree_query_total_except_nil.2.1 (textN "z") [textN "x", elemN "b" [] []]
     (fun n => n.ntype == NodeType.elementNode) (elemN "b" [] []) rfl,
   c5_tree_query_total_except_nil.2.2.2 (findByClass "athing")⟩

/-- C3: a story fragment whose metadata row is classified as an advertisement
(comment-locator text equals "hide") is assembled with the absent sentinels —
author "N/A", score -1, commentCount -1 — and the result does not depend on
the author/score/comment extractors, which are never run (the witness uses an
ad row on which all three would fail); conversely a failure of the
comment-text locator itself propagates as the error of the whole page, not as
"not an ad". -/
theorem c3_advertisement_sentinels (postNode nextSib : Node)
    (rest2 nrest : NodeList) (nr0 : Node) (t u : String)
    (hch : nextSib.children = NodeList.cons nr0 nrest)
    (ht : getTitle postNode = GoResult.ok t)
    (hu : getURL postNode = GoResult.ok u) :
    (isAdvertisement (NodeList.cons nr0 nrest) = GoResult.ok true →
      assemblePost postNode (NodeList.cons nextSib rest2) =
        (getRank postNode).bind (fun rk =>
          GoResult.ok (some ⟨t, u, "N/A", -1, -1, rk⟩))) ∧
    (∀ e, getCommentNode (NodeList.cons nr0 nrest) = GoResult.err e →
      ∀ l, getPostsLoop ((postNode, NodeList.cons nextSib rest2) :: l) =
        GoResult.err e) := by
  constructor
  · intro hAd
    simp only [assemblePost, ht, hu, GoResult.bind, hch, hAd, if_true]
  · intro e he l
    have hAdErr : isAdvertisement (NodeList.cons nr0 nrest) = GoResult.err e := by
      simp only [isAdvertisement, he, GoResult.bind]
    simp only [getPostsLoop, assemblePost, ht, hu, GoResult.bind, hch, hAdErr]

theorem c3_advertisement_sentinels_witness :
    assemblePost (athingF "2." "T2" "http://x/2") (nlist [metaRowAdF]) =
      GoResult.ok (some ⟨"T2", "http://x/2", "N/A", -1, -1, 2⟩) ∧
    getPostsLoop [(athingF "3." "T3" "http://x/3", nlist [metaRowNoSubF])] =
      GoResult.err "comment parent nodes length is not exactly one" := by
  constructor
  · have h := c3_advertisement_sentinels (athingF "2." "T2" "http://x/2")
      metaRowAdF NodeList.nil NodeList.nil subtextAdF "T2" "http://x/2"
      rfl (by decide) (by decide)
    exact (h.1 (by decide)).trans (by decide)
  · exact (c3_advertisement_sentinels (athingF "3." "T3" "http://x/3")
      metaRowNoSubF NodeList.nil NodeList.nil (elemN "td" [] []) "T3" "http://x/3"
      rfl (by decide) (by decide)).2
      "comment parent nodes length is not exactly one" rfl []

/-- C6 counterexample: a story fragment with a valid title and link but no
next document-sibling at all — its metadata row is absent — makes `getPosts`
dereference the nil `NextSibling` pointer and crash the run, instead of
silently skipping the fragment and succeeding with no record. -/
theorem c6_no_next_sibling_crashes :
    getPosts (nlist [elemN "table" [] [athingF "1." "T" "http://x/y"]]) =
      GoResult.crash := by
  decide

/-- C6 amended: a story fragment whose next document-sibling exists but has
no first child is silently skipped — no record, no error — and the loop
continues with the remaining fragments exactly as if the fragment were not
there; a fragment with no next sibling at all instead crashes the run (see
the counterexample). -/
theorem c6_missing_metadata_row_skipped (postNode nextSib : Node)
    (rest2 : NodeList) (t u : String)
    (ht : getTitle postNode = GoResult.ok t)
    (hu : getURL postNode = GoResult.ok u)
    (hrow : nextSib.children = NodeList.nil) :
    assemblePost postNode (NodeList.cons nextSib rest2) = GoResult.ok none ∧
    ∀ l, getPostsLoop ((postNode, NodeList.cons nextSib rest2) :: l) =
      getPostsLoop l := by
  have hskip : assemblePost postNode (NodeList.cons nextSib rest2) =
      GoResult.ok none := by
    simp only [assemblePost, ht, hu, GoResult.bind, hrow]
  refine ⟨hskip, fun l => ?_⟩
  simp only [getPostsLoop, hskip, GoResult.bind]
  cases hgl : getPostsLoop l <;> simp [GoResult.bind]

theorem c6_missing_metadata_row_skipped_witness :
    assemblePost (athingF "1." "T" "http://x/y") (nlist [elemN "tr" [] []]) =
      GoResult.ok none ∧
    getPostsLoop [(athingF "1." "T" "http://x/y", nlist [elemN "tr" [] []])] =
      getPostsLoop [] := by
  have h := c6_missing_metadata_row_skipped (athingF "1." "T" "http://x/y")
    (elemN "tr" [] []) NodeList.nil "T" "http://x/y"
    (by decide) (by decide) rfl
  exact ⟨h.1, h.2 []⟩

lemma getRank_text_rule (node rn tn : Node) (cs : NodeList) (t : String)
    (hfind : findNode (findByClass "rank") node.children = [rn])
    (hch : rn.children = NodeList.cons tn cs)
    (hty : tn.ntype = NodeType.textNode)
    (hdata : tn.data = t) :
    getRank node = (match atoi (removeFirstDot t.toList) with
      | none => GoResult.err "rank failed to convert to integer"
      | some v => GoResult.ok v) := by
  simp only [getRank, hfind, hch, hty, hdata]
  simp

lemma getPoints_text_rule (f : NodeList) (sc tn : Node) (cs : NodeList)
    (s : String)
    (hfind : findNode (findByClass "score") f = [sc])
    (hch : sc.children = NodeList.cons tn cs)
    (hty : tn.ntype = NodeType.textNode)
    (hdata : tn.data = s) :
    getPoints f = (match atoi (stripPointsWord s.toList) with
      | none => GoResult.err "point failed to convert to integer"
      | some v => GoResult.ok v) := by
  simp only [getPoints, hfind, hch, hty, hdata]
  simp

lemma getComments_text_rule (f : NodeList) (tn : Node) (s : String)
    (hcn : getCommentNode f = GoResult.ok tn)
    (hdata : tn.data = s) (hne : s ≠ "discuss") :
    getComments f = (match atoi (stripCommentsWord s.toList) with
      | none => GoResult.err "comments failed to convert to integer"
      | some v => GoResult.ok v) := by
  simp only [getComments, hcn, GoResult.bind, hdata]
  rw [if_neg hne]

lemma getComments_discuss_rule (f : NodeList) (tn : Node)
    (hcn : getCommentNode f = GoResult.ok tn)
    (hd : tn.data = "discuss") :
    getComments f = GoResult.ok 0 := by
  simp only [getComments, hcn, GoResult.bind]
  rw [if_pos hd]

/-- C8 counterexample: rank text "1.2" has no trailing "." to strip, so the
claimed rule ("strip one trailing dot, then integer-parse, fail on
non-numeric") must fail — `specRankParse` is that rule spelled out — yet the
code removes the first "." occurrence anywhere and happily returns 12. -/
theorem c8_inner_dot_accepted :
    getRank (athingF "1.2" "T" "http://x/y") = GoResult.ok 12 ∧
    specRankParse "1.2".toList = none := by
  constructor
  · decide
  · decide

/-- C8 amended: the rank extractor parses the rank element's text by removing
the FIRST "." occurrence — wherever it sits, at most one — and
integer-parsing the remainder, failing exactly when that remainder is
non-numeric. -/
theorem c8_rank_parse_rule (node rn tn : Node) (cs : NodeList) (t : String)
    (hfind : findNode (findByClass "rank") node.children = [rn])
    (hch : rn.children = NodeList.cons tn cs)
    (hty : tn.ntype = NodeType.textNode)
    (hdata : tn.data = t) :
    getRank node = (match atoi (removeFirstDot t.toList) with
      | none => GoResult.err "rank failed to convert to integer"
      | some v => GoResult.ok v) :=
  getRank_text_rule node rn tn cs t hfind hch hty hdata

theorem c8_rank_parse_rule_witness :
    getRank (athingF "7." "T" "http://x/y") = GoResult.ok 7 := by
  rw [c8_rank_parse_rule (athingF "7." "T" "http://x/y") (rankF "7.")
    (textN "7.") NodeList.nil "7." rfl rfl rfl rfl]
  decide

/-- C9 counterexample: a storylink whose text node is the empty string is
extracted successfully as the empty title — length 0, outside the claimed
range [1,256]; the extractor enforces no lower bound. -/
theorem c9_empty_title_extracted :
    getTitle (athingF "1." "" "http://x/y") = GoResult.ok "" := by
  decide

lemma truncate256_length (s : String) : (truncate256 s).length ≤ 256 := by
  simp only [truncate256, String.length]
  simp

/-- C9 amended: every successfully extracted title or author has length at
most 256 — source text longer than 256 characters is truncated to its first
256 characters, never rejected, and extraction never fails on account of
length — but the length-1 lower bound is not enforced: empty source text
yields an empty extracted string (see the counterexample). -/
theorem c9_title_author_truncated_to_256 :
    (∀ (n : Node) (t : String), getTitle n = GoResult.ok t → t.length ≤ 256) ∧
    (∀ (f : NodeList) (t : String), getAuthor f = GoResult.ok t →
      t.length ≤ 256) ∧
    (∀ (n sl tn : Node) (cs : NodeList) (s : String),
      findNode (findByClass "storylink") n.children = [sl] →
      sl.children = NodeList.cons tn cs → tn.ntype = NodeType.textNode →
      tn.data = s → getTitle n = GoResult.ok (truncate256 s)) ∧
    (∀ (f : NodeList) (sl tn : Node) (cs : NodeList) (s : String),
      findNode (findByClass "hnuser") f = [sl] →
      sl.children = NodeList.cons tn cs → tn.ntype = NodeType.textNode →
      tn.data = s → getAuthor f = GoResult.ok (truncate256 s)) := by
  refine ⟨?_, ?_, ?_, ?_⟩
  · intro n t h
    simp only [getTitle] at h
    split at h
    · split at h
      · simp at h
      · split at h
        · simp at h
        · cases h
          exact truncate256_length _
    · simp at h
  · intro f t h
    simp only [getAuthor] at h
    split at h
    · split at h
      · simp at h
      · split at h
        · simp at h
        · cases h
          exact truncate256_length _
    · simp at h
  · intro n sl tn cs s hfind hch hty hdata
    simp only [getTitle, hfind, hch, hty, hdata]
    simp
  · intro f sl tn cs s hfind hch hty hdata
    simp only [getAuthor, hfind, hch, hty, hdata]
    simp

theorem c9_title_author_truncated_to_256_witness :
    getTitle (athingF "1." (String.mk (List.replicate 257 'a')) "http://x/y") =
      GoResult.ok (truncate256 (String.mk (List.replicate 257 'a'))) ∧
    (truncate256 (String.mk (List.replicate 257 'a'))).length ≤ 256 := by
  have h := c9_title_author_truncated_to_256.2.2.1
    (athingF "1." (String.mk (List.replicate 257 'a')) "http://x/y")
    (titleF (String.mk (List.replicate 257 'a')) "http://x/y")
    (textN (String.mk (List.replicate 257 'a'))) NodeList.nil
    (String.mk (List.replicate 257 'a'))
    rfl rfl rfl rfl
  exact ⟨h, c9_title_author_truncated_to_256.1 _ _ h⟩

/-- C7 counterexample: a fully assembled record can violate every claimed
numeric constraint the code is said to enforce — score text "-5 points"
parses to the negative score -5 and rank text "0." parses to the
non-positive rank 0, both accepted without error. -/
theorem c7_negative_score_and_zero_rank :
    getPosts (nlist [elemN "table" []
      [athingF "0." "T" "http://x/y",
        metaRowF "-5 points" "alice" "80 comments"]]) =
    GoResult.ok [⟨"T", "http://x/y", "alice", -5, 80, 0⟩] := by
  decide

lemma atoiMag_one_nonneg (ds : List Char) (v : Int)
    (h : atoiMag 1 ds = some v) : 0 ≤ v := by
  unfold atoiMag at h
  split at h
  · simp at h
  · split at h
    · simp at h
    · cases h
      rename_i n heq hrange
      simpa using Int.natCast_nonneg n

/-- C7 amended: the extractors guarantee only that the numeric fields parsed
successfully — score and commentCount are integer parses of the
regex-stripped metadata text, rank of the dot-stripped rank text, and a
"discuss" comment link gives commentCount 0 — and the parse result is
non-negative whenever the stripped text is an unsigned digit string, but no
sign or positivity constraint is checked: negative scores and a zero rank
pass through (see the counterexample). -/
theorem c7_numeric_fields_parse_only :
    (∀ (l : List Char) (v : Int), atoi l = some v →
      l.all isGoDigit = true → 0 ≤ v) ∧
    (∀ (f : NodeList) (sc tn : Node) (cs : NodeList) (s : String),
      findNode (findByClass "score") f = [sc] →
      sc.children = NodeList.cons tn cs → tn.ntype = NodeType.textNode →
      tn.data = s →
      getPoints f = (match atoi (stripPointsWord s.toList) with
        | none => GoResult.err "point failed to convert to integer"
        | some v => GoResult.ok v)) ∧
    (∀ (f : NodeList) (tn : Node) (s : String),
      getCommentNode f = GoResult.ok tn → tn.data = s → s ≠ "discuss" →
      getComments f = (match atoi (stripCommentsWord s.toList) with
        | none => GoResult.err "comments failed to convert to integer"
        | some v => GoResult.ok v)) ∧
    (∀ (f : NodeList) (tn : Node), getCommentNode f = GoResult.ok tn →
      tn.data = "discuss" → getComments f = GoResult.ok 0) ∧
    (∀ (node rn tn : Node) (cs : NodeList) (t : String),
      findNode (findByClass "rank") node.children = [rn] →
      rn.children = NodeList.cons tn cs → tn.ntype = NodeType.textNode →
      tn.data = t →
      getRank node = (match atoi (removeFirstDot t.toList) with
        | none => GoResult.err "rank failed to convert to integer"
        | some v => GoResult.ok v)) := by
  refine ⟨?_, ?_, ?_, ?_, ?_⟩
  · intro l v h hall
    cases l with
    | nil => simp [atoi] at h
    | cons c rest =>
      have hc : isGoDigit c = true := by
        simp only [List.all_cons, Bool.and_eq_true] at hall
        exact hall.1
      simp only [atoi] at h
      by_cases hcp : c = '+'
      · rw [if_pos hcp] at h
        exact atoiMag_one_nonneg _ _ h
      · rw [if_neg hcp] at h
        by_cases hcm : c = '-'
        · rw [hcm] at hc
          exact absurd hc (by decide)
        · rw [if_neg hcm] at h
          exact atoiMag_one_nonneg _ _ h
  · intro f sc tn cs s hfind hch hty hdata
    exact getPoints_text_rule f sc tn cs s hfind hch hty hdata
  · intro f tn s hcn hdata hne
    exact getComments_text_rule f tn s hcn hdata hne
  · intro f tn hcn hd
    exact getComments_discuss_rule f tn hcn hd
  · intro node rn tn cs t hfind hch hty hdata
    exact getRank_text_rule node rn tn cs t hfind hch hty hdata

theorem c7_numeric_fields_parse_only_witness :
    getPoints (metaRowF "133 points" "franciskim" "80 comments").children =
      GoResult.ok 133 ∧
    getComments (metaRowF "133 points" "franciskim" "80 comments").children =
      GoResult.ok 80 ∧
    getComments (metaRowF "5 points" "bob" "discuss").children =
      GoResult.ok 0 ∧
    ((0 : Int) ≤ 133) := by
  refine ⟨?_, ?_, ?_, ?_⟩
  · exact (c7_numeric_fields_parse_only.2.1
      (metaRowF "133 points" "franciskim" "80 comments").children
      (scoreF "133 points") (textN "133 points") NodeList.nil "133 points"
      rfl rfl rfl rfl).trans (by decide)
  · exact (c7_numeric_fields_parse_only.2.2.1
      (metaRowF "133 points" "franciskim" "80 comments").children
      (textN "80 comments") "80 comments" rfl rfl (by decide)).trans (by decide)
  · exact c7_numeric_fields_parse_only.2.2.2.1
      (metaRowF "5 points" "bob" "discuss").children (textN "discuss") rfl rfl
  · exact c7_numeric_fields_parse_only.1 "133".toList 133 (by decide) (by decide)
